import Mathlib

/-!
Verification of the Waifu interpreter against its specification.

The development shallowly embeds the Python sources of the interpreter:

* Python runtime values are modelled by `PyVal`; Python strings are `List Char`
  and Python floats are exact rationals (`Rat`) — the interpreter only relies
  on equality, ordering and arithmetic of its numbers, all exact on the
  values exercised here.
* Python's shortest-roundtrip float printer (`str(float)`) is modelled by
  `floatStr`: an integer-valued number renders as its digits followed by
  `".0"`, any other number renders through an exact-fraction form.  The model
  is faithful in the one property the interpreter inspects: exactly the
  integer-valued numbers' renderings end in `".0"` (true of CPython for
  floats below 2^53).
* Stateful code is embedded by explicit state passing; exceptions
  (`ReturnException`, `BreakException`, `ContinueException`,
  `RuntimeException`) become the error channel of `Except`.
* Recursion through user-level function calls and `while` loops is bounded by
  an explicit fuel parameter: every evaluator function first consumes one
  unit of fuel, so the definitions are structurally recursive; running out of
  fuel is its own signal, distinct from every runtime error.
-/

namespace Waifu

/-! ## Digits: the decimal rendering of machine integers

Model of Python's `str` on integers.  `natDigits` produces the base-10
digits of a natural number, most significant first. -/

def digitChar (n : Nat) : Char := Char.ofNat (48 + n)

def natDigitsGo : Nat → Nat → List Char → List Char
  | 0, _, acc => acc
  | fuel + 1, n, acc =>
    if n < 10 then digitChar n :: acc
    else natDigitsGo fuel (n / 10) (digitChar (n % 10) :: acc)

def natDigits (n : Nat) : List Char := natDigitsGo (n + 1) n []

def intDigits (i : Int) : List Char :=
  if i < 0 then '-' :: natDigits i.natAbs else natDigits i.natAbs

/-! ## Runtime values

Model of the Python runtime values flowing through `src/Interpreter.py`:
`None`, booleans, floats, strings, user functions (`WaifuFunc`), classes
(`WaifuClass`) and instances (`WaifuObject`).  The metaclass field of
`WaifuClass` is not modelled: none of the verified operations
(`call`, `arity`, `get_method`) consult it.

The resolver's side table (`resolved_vars`, keyed by AST-node object identity
in Python) is represented by storing the resolved depth directly on each
`varaccess` node, as the spec's design notes suggest for re-implementations. -/

inductive TokenType where
  | PLUS | MINUS | TIMES | DIVIDE | OP_PAR | CL_PAR | COLON | DOT
  | NEWLINE | INDENT | DEDENT | COMMA | QUESTION
  | NUMBER | IDENTIFIER | STRING
  | EQUAL | UNEQUAL | GREATER | GREATER_EQ | LESS | LESS_EQ | ASSIGNMENT
  | OR | AND | NOT | IF | ELSE | NIL | RETURN | BREAK | CONTINUE
  | TRUE | FALSE | DEF | WHILE | NEWVAR
  | EOF
  deriving DecidableEq, Repr

/-- Token attribute payload: Python stores `None`, a float (NUMBER), a string
(STRING, IDENTIFIER) or an int (INDENT/DEDENT columns) in `Token.value`. -/
inductive TokenValue where
  | none
  | num (q : Rat)
  | str (s : List Char)
  | int (n : Nat)
  deriving DecidableEq, Repr

structure Token where
  value : TokenValue
  line : Nat
  type : TokenType
  deriving DecidableEq, Repr

/-- Argument universe of `Token.__eq__`: the interpreter compares tokens
both against tokens and (in `visit_logicalexpr`) against bare `TokenType`
members. -/
inductive TokenOrType where
  | tok (t : Token)
  | ttype (t : TokenType)

/-- Model of `Token.__eq__` (src/Lexer.py lines 71-76): the
`isinstance(object, Token)` guard makes the comparison `False` for any
non-`Token` argument, in particular for a `TokenType`. -/
def Token.eqPy (self : Token) (other : TokenOrType) : Bool :=
  match other with
  | .tok o => self.value == o.value && self.type == o.type
  | .ttype _ => false

/-- Literal payload of an AST `Literal` node: the parser only builds literals
from NUMBER, STRING, `baito`, `true` and `false` tokens. -/
inductive Lit where
  | none
  | bool (b : Bool)
  | num (q : Rat)
  | str (s : List Char)
  deriving DecidableEq, Repr

mutual

inductive PyVal where
  | none
  | bool (b : Bool)
  | num (q : Rat)
  | str (s : List Char)
  | func (f : WaifuFunc)
  | cls (c : WaifuClass)
  | obj (o : WaifuObject)

/-- Model of the `FunctionDecl` AST node fields used at runtime
(`node.name.value`, `node.params` values, `node.body`). -/
inductive FuncNode where
  | mk (name : List Char) (params : List (List Char)) (body : List Stmt)

/-- Runtime representation of user functions (`WaifuFunc`): the declaration
node plus the captured closure frame. -/
inductive WaifuFunc where
  | mk (node : FuncNode) (closure : Env)

/-- Runtime representation of classes (`WaifuClass`): name, the (possibly
empty, for `None`) superclass list, and the method table. -/
inductive WaifuClass where
  | mk (name : List Char) (super_cls : List WaifuClass)
      (methods : List (List Char × WaifuFunc))

/-- Runtime representation of instances (`WaifuObject`). -/
inductive WaifuObject where
  | mk (cls : WaifuClass) (fields : List (List Char × PyVal))

/-- Frame chain of `Environment` objects: bindings plus an optional outer
frame (`None` for the module top frame). -/
inductive Env where
  | top (bindings : List (List Char × PyVal))
  | child (bindings : List (List Char × PyVal)) (outer : Env)

inductive Expr where
  | literal (v : Lit)
  | grouping (e : Expr)
  | unary (op : Token) (right : Expr)
  | binary (left : Expr) (op : Token) (right : Expr)
  | logical (left : Expr) (op : Token) (right : Expr)
  | call (callee : Expr) (args : List Expr)
  | varaccess (name : List Char) (resolved : Option Nat)

inductive Stmt where
  | exprstmt (e : Expr)
  | blockstmt (stmts : List Stmt)
  | ifstmt (cond : Expr) (thenb : Stmt) (other : Option Stmt)
  | whilestmt (cond : Expr) (body : Stmt)
  | breakstmt
  | continuestmt
  | returnstmt (e : Option Expr)

end

def FuncNode.name : FuncNode → List Char
  | .mk n _ _ => n

def FuncNode.params : FuncNode → List (List Char)
  | .mk _ p _ => p

def FuncNode.body : FuncNode → List Stmt
  | .mk _ _ b => b

def WaifuFunc.node : WaifuFunc → FuncNode
  | .mk n _ => n

def WaifuFunc.closure : WaifuFunc → Env
  | .mk _ c => c

def WaifuClass.name : WaifuClass → List Char
  | .mk n _ _ => n

def WaifuClass.super_cls : WaifuClass → List WaifuClass
  | .mk _ s _ => s

def WaifuClass.methods : WaifuClass → List (List Char × WaifuFunc)
  | .mk _ _ m => m

def WaifuObject.cls : WaifuObject → WaifuClass
  | .mk c _ => c

def WaifuObject.fields : WaifuObject → List (List Char × PyVal)
  | .mk _ f => f

/-! ## Python primitives used by the evaluator -/

/-- Model of Python `==` on the values the interpreter compares.  Python
equates booleans with the numbers `0` and `1`; `None` equals only itself.
Functions, classes and instances compare by object identity in Python; the
embedding never compares them (no verified code path does), so they are
mapped to `false`. -/
def pyEq : PyVal → PyVal → Bool
  | .none, .none => true
  | .bool a, .bool b => a == b
  | .num a, .num b => a == b
  | .bool a, .num b => (if a then (1 : Rat) else 0) == b
  | .num a, .bool b => a == (if b then (1 : Rat) else 0)
  | .str a, .str b => a == b
  | _, _ => false

/-- Model of Python truthiness (`bool(value)`), used by the source through
`not value`: `None`, `False`, `0` and `""` are falsy. -/
def pyTruthy : PyVal → Bool
  | .none => false
  | .bool b => b
  | .num q => q != 0
  | .str s => !s.isEmpty
  | .func _ => true
  | .cls _ => true
  | .obj _ => true

/-- Model of Python `str.endswith`: the suffix test, computed on reversed
character lists. -/
def pyEndsWith (s suffix : List Char) : Bool :=
  List.isPrefixOf suffix.reverse s.reverse

/-- Model of Python `str(float)`.  An integer-valued number renders as its
digits followed by `".0"`; any other number renders through an exact
`num/den` fraction form.  The interpreter only inspects this string for the
suffix `".0"`, and the model is faithful there: exactly the integer-valued
renderings carry that suffix. -/
def floatStr (q : Rat) : List Char :=
  if q.den = 1 then intDigits q.num ++ ['.', '0']
  else intDigits q.num ++ '/' :: natDigits q.den

/-- Model of Python `str` on the runtime values (`str(value)`), including the
`__str__` overrides of `WaifuFunc`, `WaifuClass` and `WaifuObject`. -/
def pyStr : PyVal → List Char
  | .none => "None".data
  | .bool true => "True".data
  | .bool false => "False".data
  | .num q => floatStr q
  | .str s => s
  | .func f =>
    if f.node.name.isEmpty then "<lambda>".data
    else "<function ".data ++ f.node.name ++ ">".data
  | .cls c => "<class ".data ++ c.name ++ ">".data
  | .obj o => "<object of <class ".data ++ o.cls.name ++ ">>".data

/-- Model of `Interpreter._boolean_eval` (src/Interpreter.py lines 173-177):
`if operand == False or operand == None: return False` followed by
`return True`, with `==` being Python equality. -/
def boolean_eval (operand : PyVal) : Bool :=
  if pyEq operand (.bool false) || pyEq operand .none then false else true

/-- Model of `Interpreter._equality_eval` (src/Interpreter.py lines 179-181). -/
def equality_eval (obj1 obj2 : PyVal) : Bool :=
  pyEq obj1 obj2

/-- Model of `Interpreter._make_waifuish` (src/Interpreter.py lines 205-212):
`if value != 0 and not value: return "baito"`, then floats ending in `".0"`
are printed with the final two characters sliced off (`str(value)[:-2]`),
and everything else via `str(value)`. -/
def make_waifuish (value : PyVal) : List Char :=
  if !pyEq value (.num 0) && !pyTruthy value then "baito".data
  else
    match value with
    | .num q =>
      if pyEndsWith (floatStr q) ['.', '0'] then (floatStr q).dropLast.dropLast
      else pyStr (.num q)
    | v => pyStr v

/-! ## Environment: depth-indexed frame access -/

/-- Dictionary update on an association list, modelling Python
`bindings[name] = value`: replace the existing entry or append a new one. -/
def updateB (b : List (List Char × PyVal)) (name : List Char) (v : PyVal) :
    List (List Char × PyVal) :=
  match b with
  | [] => [(name, v)]
  | (k, w) :: rest =>
    if k == name then (k, v) :: rest else (k, w) :: updateB rest name v

/-- Modelled from the spec: `Environment.get_at_index` is called by
`src/src/Interpreter.py` (`visit_varaccess`, `visit_objref`,
`visit_superref`, `_decorated_function`), but the `Environment` class in
`src/src/environment.py` does not define it.  Per spec §4.5,
`get_at(depth, slot)` traverses `depth` parents then reads the slot.
Running past the top frame yields no value (the source would fault). -/
def Env.get_at_index : Env → Nat → List Char → Option PyVal
  | .top b, 0, name => List.lookup name b
  | .child b _, 0, name => List.lookup name b
  | .top _, _ + 1, _ => Option.none
  | .child _ o, k + 1, name => o.get_at_index k name

/-- Modelled from the spec: `Environment.assign_at` is called by
`src/src/Interpreter.py` (`visit_assstmt`, `visit_assign`) but absent from
`src/src/environment.py`.  Per spec §4.5, `assign_at(depth, slot, value)`
traverses `depth` parents then assigns the slot. -/
def Env.assign_at : Env → PyVal → Nat → List Char → Option Env
  | .top b, v, 0, name => some (.top (updateB b name v))
  | .child b o, v, 0, name => some (.child (updateB b name v) o)
  | .top _, _, _ + 1, _ => Option.none
  | .child b o, v, k + 1, name => (o.assign_at v k name).map (Env.child b)

/-- Frame chain of an environment, innermost first. -/
def Env.frames : Env → List (List (List Char × PyVal))
  | .top b => [b]
  | .child b o => b :: o.frames

/-! ## Evaluator: operators -/

/-- Exception channel of the evaluator.  `RuntimeException` (whose token and
message payload are not modelled) aborts module evaluation; the other
constructors model the non-local-exit exceptions of `src/errors.py`, plus
the fuel-exhaustion sentinel of the embedding. -/
inductive Sig where
  | rtErr
  | brkExc
  | contExc
  | retExc (v : PyVal)
  | noFuel

/-- Model of Python `type(x) == str`. -/
def isStr : PyVal → Bool
  | .str _ => true
  | _ => false

/-- Model of Python `type(x) is float`; booleans are not floats. -/
def isFloat : PyVal → Bool
  | .num _ => true
  | _ => false

/-- Model of `float(x)` as applied by the source: every call site has already
checked `type(x) is float`, so only the identity case is ever exercised. -/
def float_of : PyVal → Rat
  | .num q => q
  | _ => 0

/-- Model of `Interpreter._check_num_unary`. -/
def check_num_unary (operand : PyVal) : Except Sig Unit :=
  if isFloat operand then .ok () else .error .rtErr

/-- Model of `Interpreter._check_num_binary`. -/
def check_num_binary (left right : PyVal) : Except Sig Unit :=
  if isFloat left && isFloat right then .ok () else .error .rtErr

/-- Model of `Interpreter._check_zero_dividend`. -/
def check_zero_dividend (right : PyVal) : Except Sig Unit :=
  if float_of right == 0 then .error .rtErr else .ok ()

/-- Model of the operator dispatch of `Interpreter.visit_binaryexpr`
(src/Interpreter.py lines 387-421), applied after both operands are
evaluated.  The PLUS branch reproduces the source condition verbatim:
`if type(left) == str or type(left) == str` tests the left operand twice
and never inspects the right one.  An unmatched operator falls off the end
of the Python method and yields `None`. -/
def binary_op_eval (op : TokenType) (left right : PyVal) : Except Sig PyVal :=
  match op with
  | .PLUS =>
    if isStr left || isStr left then
      .ok (.str (make_waifuish left ++ make_waifuish right))
    else do
      check_num_binary left right
      .ok (.num (float_of left + float_of right))
  | .MINUS => do
      check_num_binary left right
      .ok (.num (float_of left - float_of right))
  | .DIVIDE => do
      check_num_binary left right
      check_zero_dividend right
      .ok (.num (float_of left / float_of right))
  | .TIMES => do
      check_num_binary left right
      .ok (.num (float_of left * float_of right))
  | .LESS => do
      check_num_binary left right
      .ok (.bool (float_of left < float_of right))
  | .LESS_EQ => do
      check_num_binary left right
      .ok (.bool (float_of left ≤ float_of right))
  | .GREATER => do
      check_num_binary left right
      .ok (.bool (float_of right < float_of left))
  | .GREATER_EQ => do
      check_num_binary left right
      .ok (.bool (float_of right ≤ float_of left))
  | .EQUAL => .ok (.bool (equality_eval left right))
  | .UNEQUAL => .ok (.bool (!equality_eval left right))
  | _ => .ok .none

/-- Model of the operator dispatch of `Interpreter.visit_unaryexpr`. -/
def unary_op_eval (op : TokenType) (operand : PyVal) : Except Sig PyVal :=
  match op with
  | .MINUS => do
      check_num_unary operand
      .ok (.num (-(float_of operand)))
  | .NOT => .ok (.bool (!boolean_eval operand))
  | _ => .ok .none

/-! ## Evaluator: callables and statements -/

def litVal : Lit → PyVal
  | .none => .none
  | .bool b => .bool b
  | .num q => .num q
  | .str s => .str s

/-- Model of `WaifuFunc.arity`. -/
def WaifuFunc.arity (f : WaifuFunc) : Nat :=
  f.node.params.length

/-- Model of `WaifuFunc.bind`: a fresh one-slot frame binding `watashi` to
the receiver is inserted above the closure. -/
def WaifuFunc.bind (f : WaifuFunc) (o : WaifuObject) : WaifuFunc :=
  .mk f.node (Env.child [("watashi".data, .obj o)] f.closure)

/-- Model of `WaifuClass.arity` (src/Interpreter.py lines 126-130): only the
class's own method table is consulted for `shison`. -/
def WaifuClass.arity (c : WaifuClass) : Nat :=
  match List.lookup "shison".data c.methods with
  | some m => m.arity
  | Option.none => 0

mutual

/-- Model of `WaifuClass.get_method` (src/Interpreter.py lines 135-143): the
class's own method table first, then each superclass depth-first
left-to-right.  The source skips the loop when `super_cls` is `None` or
empty, which coincides with the empty-list case of `getMethodSupers`. -/
def WaifuClass.get_method : WaifuClass → List Char → Option WaifuFunc
  | .mk _ supers methods, name =>
    match List.lookup name methods with
    | some m => some m
    | Option.none => getMethodSupers supers name

def getMethodSupers : List WaifuClass → List Char → Option WaifuFunc
  | [], _ => Option.none
  | sc :: rest, name =>
    match sc.get_method name with
    | some m => some m
    | Option.none => getMethodSupers rest name

end

/-- Call log of the embedding: the names of the user functions whose bodies
the evaluator entered, used to observe which code actually ran.  Entries
reached strictly inside an exceptional exit are elided (the `Except` error
channel carries no log), which never hides the entry of the function that
is itself being observed. -/
abbrev Log := List (List Char)

/-- Callable test of `visit_callexpr` (`isinstance(callee, CallableObj)`).
The stdlib host functions `print`/`input` perform I/O and are not part of
the embedding. -/
def isCallable : PyVal → Bool
  | .func _ => true
  | .cls _ => true
  | _ => false

/-- Arity dispatch of `visit_callexpr`; never reached on non-callables. -/
def pyArity : PyVal → Nat
  | .func f => f.arity
  | .cls c => c.arity
  | _ => 0

/-- Parameter binding of `WaifuFunc.call`: `zip` pairs positionally and stops
at the shorter list, exactly as the source's `zip(params, args)`. -/
def bindParams (params : List (List Char)) (args : List PyVal) :
    List (List Char × PyVal) :=
  params.zip args

mutual

/-- Model of the expression half of `Interpreter.visit` dispatch:
`visit_literal`, `visit_groupingexpr`, `visit_unaryexpr`,
`visit_binaryexpr`, `visit_logicalexpr`, `visit_callexpr` and
`visit_varaccess`.  In `visit_logicalexpr` the source compares
`node.operator == TokenType.OR` where `node.operator` is a `Token`, so the
comparison goes through `Token.__eq__` — modelled verbatim by
`Token.eqPy (.ttype .OR)`. -/
def evalExpr : Nat → Expr → Env → Except Sig (PyVal × Log)
  | 0, _, _ => .error .noFuel
  | _ + 1, .literal l, _ => .ok (litVal l, [])
  | fuel + 1, .grouping e, env => evalExpr fuel e env
  | fuel + 1, .unary op r, env => do
      let (v, lg) ← evalExpr fuel r env
      let rv ← unary_op_eval op.type v
      .ok (rv, lg)
  | fuel + 1, .binary l op r, env => do
      let (lv, lg1) ← evalExpr fuel l env
      let (rv, lg2) ← evalExpr fuel r env
      let v ← binary_op_eval op.type lv rv
      .ok (v, lg1 ++ lg2)
  | fuel + 1, .logical l op r, env => do
      let (lv, lg1) ← evalExpr fuel l env
      if op.eqPy (.ttype .OR) then
        if boolean_eval lv then .ok (lv, lg1)
        else do
          let (rv, lg2) ← evalExpr fuel r env
          .ok (rv, lg1 ++ lg2)
      else
        if !boolean_eval lv then .ok (lv, lg1)
        else do
          let (rv, lg2) ← evalExpr fuel r env
          .ok (rv, lg1 ++ lg2)
  | fuel + 1, .call callee args, env => do
      let (cv, lg1) ← evalExpr fuel callee env
      let (avs, lg2) ← evalArgs fuel args env
      if !isCallable cv then .error .rtErr
      else if pyArity cv != avs.length then .error .rtErr
      else do
        let (rv, lg3) ← callValue fuel cv avs
        .ok (rv, lg1 ++ lg2 ++ lg3)
  | _ + 1, .varaccess name resolved, env =>
      match resolved with
      | some k =>
        match env.get_at_index k name with
        | some v => .ok ((v, []) : PyVal × Log)
        | Option.none => .error .rtErr
      | Option.none => .error .rtErr

def evalArgs : Nat → List Expr → Env → Except Sig (List PyVal × Log)
  | 0, _, _ => .error .noFuel
  | _ + 1, [], _ => .ok ([], [])
  | fuel + 1, e :: es, env => do
      let (v, lg1) ← evalExpr fuel e env
      let (vs, lg2) ← evalArgs fuel es env
      .ok (v :: vs, lg1 ++ lg2)

/-- Dispatch of `callee.call(self, args)` over the callable kinds. -/
def callValue : Nat → PyVal → List PyVal → Except Sig (PyVal × Log)
  | 0, _, _ => .error .noFuel
  | fuel + 1, .func f, args => funcCall fuel f args
  | fuel + 1, .cls c, args => classCall fuel c args
  | _ + 1, _, _ => .error .rtErr

/-- Model of `WaifuFunc.call` (src/Interpreter.py lines 60-67): bind the
parameters in a fresh frame over the closure, execute the body, and catch
only `ReturnException`; every other exception — in particular
`BreakException` and `ContinueException` — propagates to the caller.
Falling off the end of the body yields `None`. -/
def funcCall : Nat → WaifuFunc → List PyVal → Except Sig (PyVal × Log)
  | 0, _, _ => .error .noFuel
  | fuel + 1, f, args =>
    let environment := Env.child (bindParams f.node.params args) f.closure
    match execStmts fuel f.node.body environment with
    | .ok lg => .ok (.none, f.node.name :: lg)
    | .error (.retExc v) => .ok (v, [f.node.name])
    | .error e => .error e

/-- Model of `WaifuClass.call` (src/Interpreter.py lines 119-124): construct
the instance, look up `shison` in the class's own method table only
(`self.methods.get("shison")`), call it bound to the instance when present,
and return the instance. -/
def classCall : Nat → WaifuClass → List PyVal → Except Sig (PyVal × Log)
  | 0, _, _ => .error .noFuel
  | fuel + 1, c, args =>
    let o := WaifuObject.mk c []
    match List.lookup "shison".data c.methods with
    | some constructr => do
        let (_, lg) ← funcCall fuel (constructr.bind o) args
        .ok (.obj o, lg)
    | Option.none => .ok ((.obj o, []) : PyVal × Log)

/-- Model of the statement half of the `Interpreter.visit` dispatch:
`visit_exprstmt`, `visit_blockstmt` (a fresh child frame, restored after),
`visit_ifstmt`, `visit_whilestmt`, `visit_breakstmt`, `visit_continuestmt`
and `visit_returnstmt` (each of the last three raising its exception). -/
def execStmt : Nat → Stmt → Env → Except Sig Log
  | 0, _, _ => .error .noFuel
  | fuel + 1, .exprstmt e, env => do
      let (_, lg) ← evalExpr fuel e env
      .ok lg
  | fuel + 1, .blockstmt ss, env => execStmts fuel ss (Env.child [] env)
  | fuel + 1, .ifstmt c t o, env => do
      let (v, lg1) ← evalExpr fuel c env
      if boolean_eval v then do
        let lg2 ← execStmt fuel t env
        .ok (lg1 ++ lg2)
      else
        match o with
        | some s => do
            let lg2 ← execStmt fuel s env
            .ok (lg1 ++ lg2)
        | Option.none => .ok lg1
  | fuel + 1, .whilestmt c b, env => whileGo fuel c b env
  | _ + 1, .breakstmt, _ => .error .brkExc
  | _ + 1, .continuestmt, _ => .error .contExc
  | fuel + 1, .returnstmt oe, env =>
      match oe with
      | some e =>
        match evalExpr fuel e env with
        | .ok (v, _) => .error (.retExc v)
        | .error sig => .error sig
      | Option.none => .error (.retExc .none)

/-- Model of the loop of `Interpreter.visit_whilestmt` (src/Interpreter.py
lines 323-331): the outer `try` catches `BreakException` anywhere in the
loop (condition included); the inner `try` catches `ContinueException`
around the body only. -/
def whileGo : Nat → Expr → Stmt → Env → Except Sig Log
  | 0, _, _, _ => .error .noFuel
  | fuel + 1, c, b, env =>
    match evalExpr fuel c env with
    | .error .brkExc => .ok []
    | .error sig => .error sig
    | .ok (v, lg1) =>
      if boolean_eval v then
        match execStmt fuel b env with
        | .ok lg2 =>
          match whileGo fuel c b env with
          | .ok lg3 => .ok (lg1 ++ lg2 ++ lg3)
          | .error sig => .error sig
        | .error .contExc =>
          match whileGo fuel c b env with
          | .ok lg3 => .ok (lg1 ++ lg3)
          | .error sig => .error sig
        | .error .brkExc => .ok lg1
        | .error sig => .error sig
      else .ok lg1

/-- Model of `Interpreter._execute_block`'s statement loop. -/
def execStmts : Nat → List Stmt → Env → Except Sig Log
  | 0, _, _ => .error .noFuel
  | _ + 1, [], _ => .ok []
  | fuel + 1, s :: ss, env => do
      let lg1 ← execStmt fuel s env
      let lg2 ← execStmts fuel ss env
      .ok (lg1 ++ lg2)

end

/-! ## Lexer

Model of `src/src/Lexer.py`.  The buffer is a `List Char` indexed by
positions, as in the source.  Reported lexical errors accumulate in the
state (the error sink records them and lexing continues); an uncaught host
exception — the `IndexError` raised by `_match`'s error message when it
peeks at end of input — aborts lexing through the `Except` channel.
Character classes (`isidentifier`, `isspace`) follow the host's ASCII
behavior; Unicode identifier classes are out of scope per spec §1. -/

/-- Lexical diagnostics reported through the error sink (messages are
structured here; the source formats them with the line number). -/
inductive LexError where
  | unknownChar (line : Nat) (c : Char)
  | unterminatedString (line : Nat)
  | expectedChar (line : Nat) (c : Char)
  | indentWithoutColon (line : Nat)
  | expectIndentation (line : Nat)
  | dedentAfterColon (line : Nat)
  deriving DecidableEq, Repr

/-- Host-level aborts of the lexer: the `IndexError` escaping `_match`, and
the fuel sentinel of the embedding (the source loop consumes at least one
character per iteration, so `length + 1` units never run out). -/
inductive LexCrash where
  | indexError
  | fuelOut
  deriving DecidableEq, Repr

structure LexState where
  text : List Char
  start_pos : Nat
  curr_pos : Nat
  line : Nat
  tokens : List Token
  indent_pos : Nat
  indent_stack : List Nat
  empty_line : Bool
  errors : List LexError
  deriving Repr

/-- Model of the Python slice `text[a:b]`. -/
def slice (l : List Char) (a b : Nat) : List Char := (l.take b).drop a

def keywordsTable : List (List Char × TokenType) :=
  [("and".data, .AND), ("or".data, .OR), ("not".data, .NOT),
   ("nani".data, .IF), ("daijobu".data, .ELSE), ("true".data, .TRUE),
   ("false".data, .FALSE), ("baito".data, .NIL), ("desu".data, .DEF),
   ("shinu".data, .RETURN), ("yamero".data, .BREAK), ("kowai".data, .CONTINUE),
   ("yandere".data, .WHILE), ("baka".data, .NEWVAR)]

def simpleTokensTable : List (Char × TokenType) :=
  [('(', .OP_PAR), (')', .CL_PAR), ('+', .PLUS), ('-', .MINUS),
   ('*', .TIMES), ('/', .DIVIDE), ('.', .DOT), ('=', .EQUAL),
   (':', .COLON), (',', .COMMA), ('?', .QUESTION)]

def isEofL (s : LexState) : Bool := s.curr_pos ≥ s.text.length

/-- Model of `self._peek()` at the call sites guarded by `is_eof` (the value
is irrelevant past the end). -/
def peekD (s : LexState) : Char := s.text.getD s.curr_pos (Char.ofNat 0)

def addToken (s : LexState) (ty : TokenType) (v : TokenValue) : LexState :=
  { s with tokens := s.tokens ++ [⟨v, s.line, ty⟩] }

def addLexError (s : LexState) (e : LexError) : LexState :=
  { s with errors := s.errors ++ [e] }

/-- Model of `Lexer._is_digit`: code point between 48 and 57. -/
def isDigitPy (c : Char) : Bool := 48 ≤ c.toNat && c.toNat ≤ 57

/-- Model of Python `str.isspace` on the ASCII whitespace characters. -/
def isSpacePy (c : Char) : Bool :=
  c == ' ' || c == '\t' || c == '\n' || c == '\r' ||
    c.toNat == 11 || c.toNat == 12

def isIdentStart (c : Char) : Bool := c.isAlpha || c == '_'

def isIdentCont (c : Char) : Bool := c.isAlphanum || c == '_'

/-- Model of Python `str.isidentifier` (ASCII fragment). -/
def isIdentStr (l : List Char) : Bool :=
  match l with
  | [] => false
  | c :: rest => isIdentStart c && rest.all isIdentCont

/-- Model of `Lexer._match` (src/Lexer.py lines 201-208).  On a mismatch
with `mustMatch` set, the source builds the error message
`f"Expected {char} but got {self._peek()}."` — and that `_peek()` raises
`IndexError` when the mismatch was end-of-input. -/
def lexMatch (c : Char) (must : Bool) (s : LexState) :
    Except LexCrash (Bool × LexState) :=
  if isEofL s || peekD s != c then
    if must then
      if isEofL s then .error .indexError
      else .ok (false, addLexError s (.expectedChar s.line c))
    else .ok (false, s)
  else .ok (true, { s with curr_pos := s.curr_pos + 1 })

/-- Loop of `Lexer._handle_comments`.  All character loops below take an
explicit fuel so that they are structurally recursive: every iteration
advances `curr_pos` by one and requires `curr_pos < text.length`, so the
`text.length + 1` units supplied by the callers never run out. -/
def handleCommentsGo : Nat → LexState → LexState
  | 0, s => s
  | fuel + 1, s =>
    if ¬ isEofL s ∧ peekD s ≠ '\n' then
      handleCommentsGo fuel { s with curr_pos := s.curr_pos + 1 }
    else s

def handleComments (s : LexState) : LexState :=
  handleCommentsGo (s.text.length + 1) s

/-- Loop of `Lexer._handle_string`, with `_increment_line_counter` inlined
(its own `is_eof` guard is subsumed by the loop condition). -/
def handleStringGo : Nat → LexState → LexState
  | 0, s => s
  | fuel + 1, s =>
    if ¬ isEofL s ∧ peekD s ≠ '"' then
      handleStringGo fuel
        { s with line := if peekD s = '\n' then s.line + 1 else s.line,
                 curr_pos := s.curr_pos + 1 }
    else s

/-- Model of `Lexer._handle_string`. -/
def handleString (s : LexState) : LexState :=
  let s1 := handleStringGo (s.text.length + 1) s
  if isEofL s1 then addLexError s1 (.unterminatedString s1.line)
  else
    let s2 := { s1 with curr_pos := s1.curr_pos + 1 }
    addToken s2 .STRING (.str (slice s2.text (s2.start_pos + 1) (s2.curr_pos - 1)))

def skipDigitsGo : Nat → LexState → LexState
  | 0, s => s
  | fuel + 1, s =>
    if ¬ isEofL s ∧ isDigitPy (peekD s) then
      skipDigitsGo fuel { s with curr_pos := s.curr_pos + 1 }
    else s

def skipDigits (s : LexState) : LexState :=
  skipDigitsGo (s.text.length + 1) s

def digitsToNat (l : List Char) : Nat :=
  l.foldl (fun a c => a * 10 + (c.toNat - 48)) 0

/-- Model of Python `float()` on the strings this lexer feeds it: a digit
run optionally followed by `.` and a digit run. -/
def parseFloat (l : List Char) : Rat :=
  let ip := l.takeWhile (· ≠ '.')
  match l.dropWhile (· ≠ '.') with
  | [] => (digitsToNat ip : Rat)
  | _ :: fs => (digitsToNat ip : Rat) + (digitsToNat fs : Rat) / ((10 : Rat) ^ fs.length)

/-- Model of `Lexer._handle_number`. -/
def handleNumber (s : LexState) : LexState :=
  let s1 := skipDigits s
  let s2 :=
    if ¬ isEofL s1 ∧ peekD s1 = '.' then skipDigits { s1 with curr_pos := s1.curr_pos + 1 }
    else s1
  addToken s2 .NUMBER (.num (parseFloat (slice s2.text s2.start_pos s2.curr_pos)))

/-- Loop of `Lexer._handle_whitespace`. -/
def handleWhitespaceGo : Nat → LexState → LexState
  | 0, s => s
  | fuel + 1, s =>
    if ¬ isEofL s ∧ isSpacePy (peekD s) ∧ peekD s ≠ '\n' then
      handleWhitespaceGo fuel { s with curr_pos := s.curr_pos + 1 }
    else s

def handleWhitespace (s : LexState) : LexState :=
  handleWhitespaceGo (s.text.length + 1) s

/-- Loop of `Lexer._get_num_spaces`. -/
def getNumSpacesGo : Nat → LexState → Nat → Nat × LexState
  | 0, s, n => (n, s)
  | fuel + 1, s, n =>
    if ¬ isEofL s ∧ peekD s = ' ' then
      getNumSpacesGo fuel { s with curr_pos := s.curr_pos + 1 } (n + 1)
    else (n, s)

/-- Loop of `Lexer._handle_identifier`. -/
def handleIdentGo : Nat → LexState → LexState
  | 0, s => s
  | fuel + 1, s =>
    if ¬ isEofL s ∧
        isIdentStr (slice s.text s.start_pos s.curr_pos ++ [peekD s]) then
      handleIdentGo fuel { s with curr_pos := s.curr_pos + 1 }
    else s

/-- Model of `Lexer._handle_identifier`: keywords substitute for
IDENTIFIER. -/
def handleIdentifier (s : LexState) : LexState :=
  let s1 := handleIdentGo (s.text.length + 1) s
  let ident := slice s1.text s1.start_pos s1.curr_pos
  match List.lookup ident keywordsTable with
  | some ty => addToken s1 ty .none
  | Option.none => addToken s1 .IDENTIFIER (.str ident)

/-- Model of Python `self.tokens[-2]`: `none` when fewer than two tokens
exist (the source raises `IndexError` inside a `try`). -/
def secondLastTok (l : List Token) : Option Token :=
  match l.reverse with
  | _ :: t :: _ => some t
  | _ => Option.none

/-- Model of `Lexer._increased_block_indent` (src/Lexer.py lines 284-296):
an indent increase requires the second-to-last token to be a colon; then the
old level is pushed and a single INDENT carrying the new column is
emitted. -/
def increasedBlockIndent (spaces : Nat) (s : LexState) : LexState :=
  if spaces ≤ s.indent_pos then s
  else
    match secondLastTok s.tokens with
    | some t =>
      if t.type ≠ .COLON then addLexError s (.indentWithoutColon s.line)
      else
        addToken
          { s with indent_stack := s.indent_pos :: s.indent_stack,
                   indent_pos := spaces }
          .INDENT (.int spaces)
    | Option.none => addLexError s (.indentWithoutColon s.line)

/-- Model of `Lexer._same_block_indent`. -/
def sameBlockIndent (spaces : Nat) (s : LexState) : LexState :=
  if spaces ≠ s.indent_pos then s
  else
    match secondLastTok s.tokens with
    | some t => if t.type ≠ .COLON then s else addLexError s (.expectIndentation s.line)
    | Option.none => s

/-- Dedent loop of `Lexer._less_block_indent`: one DEDENT (carrying the
abandoned column) per popped level; an empty stack resets the level to 0.
The indent stack is a cons-list with its top at the head (the source uses a
Python list with `append`/`pop` at the tail). -/
def dedentLoopGo : Nat → Nat → LexState → LexState
  | 0, _, s => s
  | fuel + 1, spaces, s =>
    if spaces < s.indent_pos then
      match s.indent_stack with
      | [] =>
        dedentLoopGo fuel spaces
          { addToken s .DEDENT (.int s.indent_pos) with indent_pos := 0 }
      | top :: rest =>
        dedentLoopGo fuel spaces
          { addToken s .DEDENT (.int s.indent_pos) with
              indent_pos := top, indent_stack := rest }
    else s

/-- Fuel for the dedent loop: each iteration pops the stack, and the
iteration that finds it empty resets the level to `0`, after which
`spaces < 0` fails; `length + 2` units therefore never run out. -/
def dedentLoop (spaces : Nat) (s : LexState) : LexState :=
  dedentLoopGo (s.indent_stack.length + 2) spaces s

/-- Model of `Lexer._less_block_indent` (src/Lexer.py lines 311-325).  With
fewer than two tokens the leading `self.tokens[-2]` raises inside the `try`
and the `except` swallows everything: no DEDENT is emitted at all. -/
def lessBlockIndent (spaces : Nat) (s : LexState) : LexState :=
  if spaces ≥ s.indent_pos then s
  else
    match secondLastTok s.tokens with
    | Option.none => s
    | some t =>
      let s1 := if t.type = .COLON then addLexError s (.dedentAfterColon s.line) else s
      dedentLoop spaces s1

/-- Model of `Lexer._handle_block`: emit the NEWLINE of a non-empty logical
line, count the next line's leading spaces, and ignore blank and
comment-only lines before adjusting the block state. -/
def handleBlock (s : LexState) : LexState :=
  let s1 := if ¬ s.empty_line then addToken s .NEWLINE .none else s
  let s2 := { s1 with line := s1.line + 1, empty_line := true }
  let (spaces, s3) := getNumSpacesGo (s2.text.length + 1) s2 0
  if isEofL s3 || peekD s3 == '#' || isSpacePy (peekD s3) then s3
  else lessBlockIndent spaces (sameBlockIndent spaces (increasedBlockIndent spaces s3))

/-- Model of `Lexer._get_token` (src/Lexer.py lines 154-195): consume one
character and dispatch on it, trying each automaton in source order. -/
def getToken (s : LexState) : Except LexCrash LexState :=
  let current := peekD s
  let s := { s with curr_pos := s.curr_pos + 1 }
  if isIdentStr [current] then
    .ok { handleIdentifier s with empty_line := false }
  else
    match List.lookup current simpleTokensTable with
    | some ty => .ok { addToken s ty .none with empty_line := false }
    | Option.none =>
      if current = '<' then do
        let (m1, s) ← lexMatch '-' false s
        if m1 then .ok { addToken s .ASSIGNMENT .none with empty_line := false }
        else do
          let (m2, s) ← lexMatch '=' false s
          .ok { addToken s (if m2 then .LESS_EQ else .LESS) .none with empty_line := false }
      else if current = '>' then do
        let (m, s) ← lexMatch '=' false s
        .ok { addToken s (if m then .GREATER_EQ else .GREATER) .none with empty_line := false }
      else if current = '!' then do
        let (m, s) ← lexMatch '=' true s
        let s := if m then addToken s .UNEQUAL .none else s
        .ok { s with empty_line := false }
      else if current = '#' then .ok (handleComments s)
      else if current = '"' then .ok { handleString s with empty_line := false }
      else if isDigitPy current then .ok { handleNumber s with empty_line := false }
      else if current = '\n' then .ok (handleBlock s)
      else if isSpacePy current then .ok (handleWhitespace s)
      else .ok (addLexError s (.unknownChar s.line current))

/-- Main loop of `Lexer.get_tokens`. -/
def lexLoop : Nat → LexState → Except LexCrash LexState
  | 0, _ => .error .fuelOut
  | fuel + 1, s =>
    if isEofL s then .ok s
    else do
      let s' ← getToken { s with start_pos := s.curr_pos }
      lexLoop fuel s'

/-- Model of `Lexer._close_last_block`: at end of input every remaining
indentation level is closed with a DEDENT. -/
def closeLastBlockGo : Nat → LexState → LexState
  | 0, s => s
  | fuel + 1, s =>
    match s.indent_stack with
    | [] => s
    | top :: rest =>
      closeLastBlockGo fuel
        { addToken s .DEDENT (.int s.indent_pos) with
            indent_pos := top, indent_stack := rest }

def closeLastBlock (s : LexState) : LexState :=
  closeLastBlockGo (s.indent_stack.length + 1) s

def initLexState (text : List Char) : LexState :=
  ⟨text, 0, 0, 1, [], 0, [], true, []⟩

/-- Model of `Lexer.get_tokens` (src/Lexer.py lines 136-142): scan to end of
input, close the remaining blocks, append EOF. -/
def get_tokens (text : List Char) : Except LexCrash (List Token) := do
  let s ← lexLoop (text.length + 1) (initLexState text)
  let s := closeLastBlock s
  let s := addToken s .EOF .none
  .ok s.tokens

/-! ## Resolver: function-context discipline

Model of the fragment of `src/src/Resolver.py` that decides where `return`
statements are legal: the `Context` tracking of `_resolve_callable`
(saved and restored around each callable, here passed down), the
method-context selection of `visit_classdecl` (a method named `shison`
resolves in `CONSTRUCTOR` context) and `visit_returnstmt`.  Statements with
no bearing on return legality are represented by `other`; the error
payloads (line numbers, messages) are structured. -/

inductive Context where
  | FUNCTION
  | METHOD
  | CONSTRUCTOR
  | OTHER
  deriving DecidableEq, Repr

inductive SemErr where
  | returnOutsideFunction
  | returnInConstructor
  deriving DecidableEq, Repr

/-- Resolver-level statements: returns (with or without an expression),
function declarations, class declarations (name–body pairs of their
methods) and a catch-all for statements irrelevant to return checking. -/
inductive RStmt where
  | returnstmt (hasExpr : Bool)
  | functiondecl (name : List Char) (body : List RStmt)
  | classdecl (name : List Char) (methods : List (List Char × List RStmt))
  | other

mutual

/-- Model of the return-context checks of the resolver.
`visit_returnstmt` (src/Resolver.py lines 302-309) reports
"Can't use 'shinu' outside of functions." in `OTHER` context and
"Can't use 'shinu' in constructors." in `CONSTRUCTOR` context — the latter
without inspecting whether the return carries an expression.
`visit_functiondecl` resolves the body in `FUNCTION` context;
`visit_classdecl` (lines 229-237) resolves each method in `METHOD` context
unless it is named `shison`, which resolves in `CONSTRUCTOR` context. -/
def resolveStmt : Context → RStmt → List SemErr
  | ctx, .returnstmt _ =>
    if ctx = .OTHER then [.returnOutsideFunction]
    else if ctx = .CONSTRUCTOR then [.returnInConstructor]
    else []
  | _, .functiondecl _ body => resolveStmts .FUNCTION body
  | _, .classdecl _ methods => resolveMethods methods
  | _, .other => []

def resolveMethods : List (List Char × List RStmt) → List SemErr
  | [] => []
  | (name, body) :: rest =>
    resolveStmts (if name ≠ "shison".data then .METHOD else .CONSTRUCTOR) body ++
      resolveMethods rest

def resolveStmts : Context → List RStmt → List SemErr
  | _, [] => []
  | ctx, st :: rest => resolveStmt ctx st ++ resolveStmts ctx rest

end

/-! ## Module manager

Model of `WaifuInterpreter.import_module` (src/waifu_interpreter.py lines
69-90) and of the registry state it manipulates.  Running a loaded module's
pipeline (`evaluate_module` → lexer/parser/resolver/evaluator) is
abstracted by the sequence of `import_module` calls it performs, given by
the `imports` map from a module's source path to the dotted paths it
imports; nothing else in the pipeline touches the loader, the module
registry or the evaluation stack.  The loader itself is abstracted by the
`loads` log: the claim under study concerns whether a file is loaded at
all, not its contents. -/

/-- Model of Python `module_path.split(".")`. -/
def splitDots : List Char → List (List Char)
  | [] => [[]]
  | c :: rest =>
    match splitDots rest with
    | [] => [[c]]
    | seg :: segs => if c = '.' then [] :: seg :: segs else (c :: seg) :: segs

/-- Model of `module_path.split(".")[-1]`: the module name is the last
dotted segment of the import path. -/
def lastSegment (path : List Char) : List Char := (splitDots path).getLastD []

structure ModuleM where
  name : List Char
  path : List Char
  deriving DecidableEq, Repr

structure WState where
  loaded : List (List Char × ModuleM)
  stack : List (List Char)
  loads : List (List Char)
  deriving DecidableEq, Repr

inductive ImpErr where
  | cyclicDependency
  | noFuel
  deriving DecidableEq, Repr

mutual

/-- Model of `WaifuInterpreter.import_module`: (1) the module name is the
last dotted segment; (2) a name already on the evaluation stack raises
`CyclicDependencyException`; (3) a name already in `loaded_modules` returns
the cached module without touching the loader; (4) otherwise the file is
loaded, the module is registered and then evaluated (stack push, the
module's own imports, stack pop). -/
def import_module (fuel : Nat) (imports : List Char → List (List Char))
    (st : WState) (module_path : List Char) : Except ImpErr (ModuleM × WState) :=
  match fuel with
  | 0 => .error .noFuel
  | fuel + 1 =>
    let name := lastSegment module_path
    if st.stack.contains name then .error .cyclicDependency
    else
      match List.lookup name st.loaded with
      | some module => .ok (module, st)
      | Option.none =>
        let st1 : WState := { st with loads := st.loads ++ [module_path] }
        let module : ModuleM := ⟨name, module_path⟩
        let st2 : WState := { st1 with loaded := st1.loaded ++ [(name, module)] }
        let st3 : WState := { st2 with stack := st2.stack ++ [name] }
        match runImports fuel imports st3 (imports module_path) with
        | .error e => .error e
        | .ok st4 => .ok (module, { st4 with stack := st4.stack.dropLast })

def runImports (fuel : Nat) (imports : List Char → List (List Char))
    (st : WState) (paths : List (List Char)) : Except ImpErr WState :=
  match fuel with
  | 0 => .error .noFuel
  | fuel + 1 =>
    match paths with
    | [] => .ok st
    | p :: ps =>
      match import_module fuel imports st p with
      | .error e => .error e
      | .ok (_, st') => runImports fuel imports st' ps

end

/-! ## Concrete fixtures used by the theorems below -/

/-- User function `g` with body `shinu false`, used to observe whether the
right operand of a logical expression is evaluated. -/
def gFunc : WaifuFunc :=
  .mk (.mk "g".data [] [.returnstmt (some (.literal (.bool false)))]) (Env.top [])

/-- User function `f` with body `yamero` (legal Waifu source when `f` is
declared inside a loop body: the parser's `loop_count` is still positive
there). -/
def fFunc : WaifuFunc := .mk (.mk "f".data [] [.breakstmt]) (Env.top [])

/-- User function `h` with body `kowai`. -/
def hFunc : WaifuFunc := .mk (.mk "h".data [] [.continuestmt]) (Env.top [])

/-- An `or` token as the parser produces it (`binary_node` stores the
consumed `Token` in `node.operator`). -/
def orTok : Token := ⟨.none, 1, .OR⟩

def andTok : Token := ⟨.none, 1, .AND⟩

def c2env : Env := Env.top [("g".data, .func gFunc)]

/-- The expression `true or g()`. -/
def c2expr : Expr :=
  .logical (.literal (.bool true)) orTok (.call (.varaccess "g".data (some 0)) [])

def c6env : Env := Env.top [("f".data, .func fFunc)]

/-- The program `yandere true: f()` — a loop whose body calls `f`, with `f`
bound one frame up. -/
def c6prog : Stmt :=
  .whilestmt (.literal (.bool true))
    (.blockstmt [.exprstmt (.call (.varaccess "f".data (some 1)) [])])

/-- Constructor `shison` with a bare `shinu` body (no expression),
taking no parameters. -/
def shisonF : WaifuFunc :=
  .mk (.mk "shison".data [] [.returnstmt Option.none]) (Env.top [])

/-- Class `A` declaring the constructor `shison`. -/
def clsA : WaifuClass := .mk "A".data [] [("shison".data, shisonF)]

/-- Class `B` inheriting from `A` and declaring nothing of its own:
`B`'s class chain contains `shison` only through `A`. -/
def clsB : WaifuClass := .mk "B".data [clsA] []

/-- Environment with two frames both binding `x`, to exercise depth-indexed
access past the innermost frame. -/
def envFix : Env := Env.child [("x".data, .num 1)] (Env.top [("x".data, .num 2)])

/-- Import map under which no module imports anything further. -/
def impNone : List Char → List (List Char) := fun _ => []

def c10_st0 : WState := ⟨[], [], []⟩

def c10_mUtil : ModuleM := ⟨"util".data, "a.util".data⟩

/-- Registry state after importing `a.util` into the empty state. -/
def c10_st1 : WState := ⟨[("util".data, c10_mUtil)], [], ["a.util".data]⟩

/-- Registry state in which a module named `util` is being evaluated. -/
def c10_stCyc : WState := ⟨[], ["util".data], []⟩


/-! # Theorems

Helper lemmas first, then one theorem per claim (with its witness or
counterexample where required). -/

theorem digitChar_isDigit {n : Nat} (h : n < 10) : (digitChar n).isDigit = true := by
  interval_cases n <;> decide

theorem natDigitsGo_append (fuel n : Nat) (acc : List Char) :
    ∃ ds : List Char, natDigitsGo fuel n acc = ds ++ acc ∧
      ∀ c ∈ ds, c.isDigit = true := by
  induction fuel generalizing n acc with
  | zero => exact ⟨[], rfl, by simp⟩
  | succ fuel ih =>
    by_cases h : n < 10
    · refine ⟨[digitChar n], by simp [natDigitsGo, h], ?_⟩
      intro c hc
      simp at hc
      subst hc
      exact digitChar_isDigit h
    · obtain ⟨ds, hds, hdig⟩ := ih (n / 10) (digitChar (n % 10) :: acc)
      refine ⟨ds ++ [digitChar (n % 10)], ?_, ?_⟩
      · simp [natDigitsGo, h, hds]
      · intro c hc
        rcases List.mem_append.1 hc with hc | hc
        · exact hdig c hc
        · simp at hc
          subst hc
          exact digitChar_isDigit (Nat.mod_lt _ (by omega))

theorem natDigits_ne_nil (n : Nat) : natDigits n ≠ [] := by
  obtain ⟨ds, hds, -⟩ := natDigitsGo_append (n + 1) n []
  unfold natDigits
  rw [hds]
  intro h
  simp at h
  subst h
  simp [natDigitsGo] at hds
  split at hds
  · exact List.noConfusion hds
  · obtain ⟨ds', hds', -⟩ := natDigitsGo_append n (n / 10) [digitChar (n % 10)]
    rw [hds'] at hds
    simp at hds

theorem natDigits_isDigit (n : Nat) : ∀ c ∈ natDigits n, c.isDigit = true := by
  obtain ⟨ds, hds, hdig⟩ := natDigitsGo_append (n + 1) n []
  unfold natDigits
  rw [hds]
  simpa using hdig

theorem Env.frames_ne_nil (env : Env) : env.frames ≠ [] := by
  cases env <;> simp [Env.frames]

/-! ## Helper lemmas on string suffixes and the float printer -/

theorem pyEndsWith_append_dotzero (s : List Char) :
    pyEndsWith (s ++ ['.', '0']) ['.', '0'] = true := by
  simp [pyEndsWith, List.isPrefixOf, List.reverse_append]

theorem dot_beq_eq_false {c : Char} (h : c.isDigit = true) : ('.' == c) = false := by
  rw [beq_eq_false_iff_ne]
  intro he
  subst he
  exact absurd h (by decide)

theorem pyEndsWith_fraction (xs ds : List Char) (hne : ds ≠ [])
    (hdig : ∀ c ∈ ds, c.isDigit = true) :
    pyEndsWith (xs ++ '/' :: ds) ['.', '0'] = false := by
  have hrev : ds.reverse ≠ [] := by simpa using hne
  obtain ⟨d, t, ht⟩ := List.exists_cons_of_ne_nil hrev
  have hrw : (xs ++ '/' :: ds).reverse = d :: (t ++ '/' :: xs.reverse) := by
    rw [List.reverse_append]
    simp [ht]
  unfold pyEndsWith
  rw [hrw]
  show List.isPrefixOf ['0', '.'] _ = false
  cases t with
  | nil =>
    simp [List.isPrefixOf]
  | cons e t' =>
    have he : e ∈ ds := by
      have : e ∈ ds.reverse := by rw [ht]; simp
      simpa using this
    simp [List.isPrefixOf, dot_beq_eq_false (hdig e he)]

theorem floatStr_not_dotzero {q : Rat} (h : q.den ≠ 1) :
    pyEndsWith (floatStr q) ['.', '0'] = false := by
  rw [floatStr, if_neg h]
  exact pyEndsWith_fraction _ _ (natDigits_ne_nil _) (natDigits_isDigit _)

/-- Characterization of `_make_waifuish` on numbers: the baito branch is
never taken (its `value != 0` guard protects exactly the numbers Python
considers falsy), and the `".0"` suffix test selects the integer-valued
numbers. -/
theorem make_waifuish_num (q : Rat) :
    make_waifuish (.num q) =
      if q.den = 1 then intDigits q.num else floatStr q := by
  have hcond : (!pyEq (.num q) (.num 0) && !pyTruthy (.num q)) = false := by
    simp only [pyEq, pyTruthy]
    cases hq : (q == 0) <;> simp [bne, hq]
  rw [make_waifuish, hcond]
  simp only [Bool.false_eq_true, if_false]
  by_cases hden : q.den = 1
  · rw [if_pos hden]
    have hfs : floatStr q = intDigits q.num ++ ['.', '0'] := by
      rw [floatStr, if_pos hden]
    rw [hfs, pyEndsWith_append_dotzero]
    simp only [if_true]
    have : intDigits q.num ++ ['.', '0'] = (intDigits q.num ++ ['.']) ++ ['0'] := by simp
    rw [this, List.dropLast_concat, List.dropLast_concat]
  · rw [if_neg hden, floatStr_not_dotzero hden]
    simp [pyStr]

/-! ## Helper lemmas on association lists and the module registry -/

theorem lookup_append {α β : Type} [BEq α] (l₁ l₂ : List (α × β)) (a : α) :
    List.lookup a (l₁ ++ l₂) =
      (List.lookup a l₁).or (List.lookup a l₂) := by
  induction l₁ with
  | nil => simp [List.lookup]
  | cons kw t ih =>
    obtain ⟨k, w⟩ := kw
    simp only [List.cons_append, List.lookup]
    cases h : (a == k) <;> simp [ih]

theorem contains_eq_false_iff {l : List (List Char)} {a : List Char} :
    l.contains a = false ↔ a ∉ l := by
  simp

/-- Invariants of `import_module` and `runImports`: a successful import
restores the evaluation stack, never removes or overwrites registry
entries, registers the imported module under the last segment of its path,
and implies that this name was not on the stack. -/
theorem import_inv : ∀ fuel : Nat,
    (∀ imports st p m st', import_module fuel imports st p = .ok (m, st') →
      st'.stack = st.stack ∧
      (∀ n v, List.lookup n st.loaded = some v → List.lookup n st'.loaded = some v) ∧
      List.lookup (lastSegment p) st'.loaded = some m ∧
      st.stack.contains (lastSegment p) = false) ∧
    (∀ imports st ps st', runImports fuel imports st ps = .ok st' →
      st'.stack = st.stack ∧
      (∀ n v, List.lookup n st.loaded = some v → List.lookup n st'.loaded = some v)) := by
  intro fuel
  induction fuel with
  | zero =>
    constructor
    · intro imports st p m st' h
      simp [import_module] at h
    · intro imports st ps st' h
      simp [runImports] at h
  | succ fuel ih =>
    constructor
    · intro imports st p m st' h
      simp only [import_module] at h
      split at h
      · exact absurd h (by simp)
      · rename_i hmem
        have hc : st.stack.contains (lastSegment p) = false :=
          contains_eq_false_iff.2 (by simpa using hmem)
        split at h
        · rename_i m0 hl
          injection h with h
          injection h with h1 h2
          subst h1; subst h2
          exact ⟨rfl, fun n v hv => hv, hl, hc⟩
        · rename_i hl
          split at h
          · exact absurd h (by simp)
          · rename_i st4 hr
            injection h with h
            injection h with h1 h2
            subst h1; subst h2
            obtain ⟨hst4, hmono4⟩ := ih.2 _ _ _ _ hr
            have hmono2 : ∀ n v, List.lookup n st.loaded = some v →
                List.lookup n (st.loaded ++ [(lastSegment p, ⟨lastSegment p, p⟩)]) = some v := by
              intro n v hv
              rw [lookup_append, hv]
              rfl
            refine ⟨?_, ?_, ?_, hc⟩
            · show st4.stack.dropLast = st.stack
              rw [show st4.stack = st.stack ++ [lastSegment p] from hst4]
              exact List.dropLast_concat
            · intro n v hv
              exact hmono4 n v (hmono2 n v hv)
            · refine hmono4 _ _ ?_
              rw [lookup_append, hl]
              simp [List.lookup]
    · intro imports st ps st' h
      simp only [runImports] at h
      split at h
      · injection h with h
        subst h
        exact ⟨rfl, fun n v hv => hv⟩
      · rename_i p ps'
        split at h
        · exact absurd h (by simp)
        · rename_i r hi
          obtain ⟨m0, st0⟩ := r
          obtain ⟨hst0, hmono0, -, -⟩ := ih.1 _ _ _ _ _ hi
          obtain ⟨hst1, hmono1⟩ := ih.2 _ _ _ _ h
          exact ⟨hst1.trans hst0, fun n v hv => hmono1 n v (hmono0 n v hv)⟩

/-! ## Claim theorems -/

/-- C1: The claim says truthiness holds exactly when the value is neither
nil nor false, and in particular that `0` and `""` are truthy.  On the code
(`_boolean_eval` uses Python `==`, and `0 == False` is true in Python) the
number `0` evaluates as falsy, contradicting the claim; the empty string is
truthy as claimed.  This theorem evaluates `_boolean_eval` at the failing
input `0` and at the surrounding values. -/
theorem c1_boolean_eval_zero_falsy :
    boolean_eval (.num 0) = false ∧
    boolean_eval (.str []) = true ∧
    boolean_eval .none = false ∧
    boolean_eval (.bool false) = false ∧
    boolean_eval (.num 1) = true ∧
    boolean_eval (.str "a".data) = true := by
  refine ⟨rfl, rfl, rfl, rfl, ?_, rfl⟩
  decide

/-- C2: The claim says `a or b` yields `a` (with `b` not evaluated) when
`a` is truthy.  On the code, `visit_logicalexpr` compares the `Token`
`node.operator` against the bare enum member `TokenType.OR`, and
`Token.__eq__`'s `isinstance` guard makes that comparison always false, so
`or` takes the `and` branch: `true or g()` calls `g` (the log records the
call) and yields `g`'s value `false` instead of `true`; `true or false`
likewise yields `false`. -/
theorem c2_or_evaluates_right_operand :
    evalExpr 10 c2expr c2env = .ok (.bool false, ["g".data]) ∧
    evalExpr 10 (.logical (.literal (.bool true)) orTok (.literal (.bool false)))
        (Env.top []) = .ok (.bool false, []) ∧
    evalExpr 10 (.logical (.literal (.bool true)) andTok (.literal (.bool false)))
        (Env.top []) = .ok (.bool false, []) ∧
    orTok.eqPy (.ttype .OR) = false :=
  ⟨rfl, rfl, rfl, rfl⟩

/-- C3: For every frame chain and recorded depth `k` within the chain,
`get_at_index` returns the binding of the slot in the frame reached after
exactly `k` parent hops, and `assign_at` rewrites exactly that frame's
slot, leaving every other frame untouched. -/
theorem c3_depth_indexed_access :
    ∀ (k : Nat) (env : Env) (slot : List Char) (v : PyVal)
      (h : k < env.frames.length),
      env.get_at_index k slot = List.lookup slot (env.frames.get ⟨k, h⟩) ∧
      ∃ env', env.assign_at v k slot = some env' ∧
        env'.frames = env.frames.set k (updateB (env.frames.get ⟨k, h⟩) slot v) := by
  intro k
  induction k with
  | zero =>
    intro env slot v h
    cases env with
    | top b => exact ⟨rfl, .top (updateB b slot v), rfl, rfl⟩
    | child b o => exact ⟨rfl, .child (updateB b slot v) o, rfl, rfl⟩
  | succ k ih =>
    intro env slot v h
    cases env with
    | top b => simp [Env.frames] at h
    | child b o =>
      have h' : k < o.frames.length := by
        simpa [Env.frames] using h
      obtain ⟨hget, env', hass, hframes⟩ := ih o slot v h'
      refine ⟨?_, .child b env', ?_, ?_⟩
      · simpa [Env.get_at_index, Env.frames] using hget
      · simp [Env.assign_at, hass]
      · simp [Env.frames, hframes]

/-- Witness for C3 at depth 1 of a two-frame chain in which both frames
bind `x`. -/
theorem c3_depth_indexed_access_witness :
    Env.get_at_index envFix 1 "x".data =
        List.lookup "x".data ((Env.frames envFix).get ⟨1, by decide⟩) ∧
      ∃ env', Env.assign_at envFix (.num 3) 1 "x".data = some env' ∧
        Env.frames env' =
          (Env.frames envFix).set 1
            (updateB ((Env.frames envFix).get ⟨1, by decide⟩) "x".data (.num 3)) :=
  c3_depth_indexed_access 1 envFix "x".data (.num 3) (by decide)

/-- C4 counterexample: class `B` inherits from `A`, whose method table
holds `shison`; the class chain therefore contains `shison`
(`get_method` finds it), yet calling `B` runs no constructor at all — the
call log is empty and the instance comes back bare, against the claim.
Calling `A` itself does run `shison` (the log records it), showing the
observation is able to see a constructor call. -/
theorem c4_inherited_constructor_not_called :
    WaifuClass.get_method clsB "shison".data = some shisonF ∧
    classCall 10 clsB [] = .ok (.obj (WaifuObject.mk clsB []), []) ∧
    classCall 10 clsA [] = .ok (.obj (WaifuObject.mk clsA []), ["shison".data]) :=
  ⟨rfl, rfl, rfl⟩

/-- C4 amended: calling a class constructs a fresh instance; if the class
ITSELF defines a method named `shison` (superclasses are not searched for
the constructor), that method is bound to the new instance and called with
the supplied arguments, and the instance is returned regardless. -/
theorem c4_constructor_own_table_only :
    ∀ (fuel : Nat) (c : WaifuClass) (args : List PyVal),
      (List.lookup "shison".data c.methods = Option.none →
        classCall (fuel + 1) c args = .ok (.obj (WaifuObject.mk c []), [])) ∧
      (∀ m : WaifuFunc, List.lookup "shison".data c.methods = some m →
        classCall (fuel + 1) c args =
          (funcCall fuel (m.bind (WaifuObject.mk c [])) args).map
            (fun r => (.obj (WaifuObject.mk c []), r.2))) := by
  intro fuel c args
  constructor
  · intro h
    simp [classCall, h]
  · intro m h
    cases hf : funcCall fuel (m.bind (WaifuObject.mk c [])) args with
    | error e => simp [classCall, h, hf, Except.map, Bind.bind, Except.bind]
    | ok r => simp [classCall, h, hf, Except.map, Bind.bind, Except.bind]

/-- Witness for C4 amended at the concrete classes `B` (no own `shison`)
and `A` (own `shison`). -/
theorem c4_constructor_own_table_only_witness :
    classCall 11 clsB [] = .ok (.obj (WaifuObject.mk clsB []), []) ∧
    classCall 11 clsA [] =
      (funcCall 10 (shisonF.bind (WaifuObject.mk clsA [])) []).map
        (fun r => (.obj (WaifuObject.mk clsA []), r.2)) :=
  ⟨(c4_constructor_own_table_only 10 clsB []).1 rfl,
   (c4_constructor_own_table_only 10 clsA []).2 shisonF rfl⟩

/-- C5: The claim says `+` concatenates when EITHER operand is a string.
On the code the condition reads `type(left) == str or type(left) == str`,
testing the left operand twice: `1 + "a"` raises the numeric-operands
runtime error instead of concatenating, while `"a" + 1` concatenates and
`1 + 2` adds, as evaluated here. -/
theorem c5_plus_ignores_right_string :
    binary_op_eval .PLUS (.num 1) (.str "a".data) = .error .rtErr ∧
    binary_op_eval .PLUS (.str "a".data) (.num 1) = .ok (.str "a1".data) ∧
    binary_op_eval .PLUS (.num 1) (.num 2) = .ok (.num 3) := by
  refine ⟨rfl, rfl, ?_⟩
  simp only [binary_op_eval, check_num_binary, isStr, isFloat, float_of,
    Bool.and_self, if_true, Bind.bind, Except.bind]
  norm_num

/-- C6 counterexample: the function `f` has the body `yamero` (parseable,
since `f` may be declared inside a loop body where the parser's loop
counter is positive).  Calling `f` yields a break signal — the claim says a
function call never does — and running `yandere true: f()` terminates
normally: the callee's break crossed the call boundary and broke the
caller's loop. -/
theorem c6_break_crosses_function_boundary :
    callValue 10 (.func fFunc) [] = .error .brkExc ∧
    execStmt 20 c6prog c6env = .ok [] :=
  ⟨rfl, rfl⟩

/-- C6 amended: a break or continue exit propagates through nested blocks
AND through function-call boundaries; the function boundary
(`WaifuFunc.call`) absorbs only a return exit, yielding the returned value,
and the while statement is the boundary that absorbs a break. -/
theorem c6_nonlocal_exit_boundaries :
    ∀ (fuel : Nat) (f : WaifuFunc) (args : List PyVal) (v : PyVal)
      (ss : List Stmt) (env : Env) (c : Expr) (b : Stmt) (lg : Log),
      (execStmts fuel f.node.body (Env.child (bindParams f.node.params args) f.closure) =
          .error .brkExc →
        funcCall (fuel + 1) f args = .error .brkExc) ∧
      (execStmts fuel f.node.body (Env.child (bindParams f.node.params args) f.closure) =
          .error .contExc →
        funcCall (fuel + 1) f args = .error .contExc) ∧
      (execStmts fuel f.node.body (Env.child (bindParams f.node.params args) f.closure) =
          .error (.retExc v) →
        funcCall (fuel + 1) f args = .ok (v, [f.node.name])) ∧
      (execStmts fuel ss (Env.child [] env) = .error .brkExc →
        execStmt (fuel + 1) (.blockstmt ss) env = .error .brkExc) ∧
      (evalExpr fuel c env = .ok (v, lg) → boolean_eval v = true →
        execStmt fuel b env = .error .brkExc →
        execStmt (fuel + 2) (.whilestmt c b) env = .ok lg) := by
  intro fuel f args v ss env c b lg
  refine ⟨?_, ?_, ?_, ?_, ?_⟩
  · intro h
    simp [funcCall, h]
  · intro h
    simp [funcCall, h]
  · intro h
    simp [funcCall, h]
  · intro h
    simp [execStmt, h]
  · intro hc hb hbody
    show whileGo (fuel + 1) c b env = .ok lg
    rw [whileGo, hc]
    simp [hb, hbody]

/-- Witness for C6 amended: break, continue and return exits of concrete
function bodies, a break through a block, and a while loop absorbing a
break raised by its body. -/
theorem c6_nonlocal_exit_boundaries_witness :
    funcCall 11 fFunc [] = .error .brkExc ∧
    funcCall 11 hFunc [] = .error .contExc ∧
    funcCall 11 gFunc [] = .ok (.bool false, ["g".data]) ∧
    execStmt 11 (.blockstmt [.breakstmt]) (Env.top []) = .error .brkExc ∧
    execStmt 12 (.whilestmt (.literal (.bool true)) .breakstmt) (Env.top []) = .ok [] :=
  ⟨(c6_nonlocal_exit_boundaries 10 fFunc [] .none [] (Env.top [])
      (.literal .none) .breakstmt []).1 rfl,
   (c6_nonlocal_exit_boundaries 10 hFunc [] .none [] (Env.top [])
      (.literal .none) .breakstmt []).2.1 rfl,
   (c6_nonlocal_exit_boundaries 10 gFunc [] (.bool false) [] (Env.top [])
      (.literal .none) .breakstmt []).2.2.1 rfl,
   (c6_nonlocal_exit_boundaries 10 fFunc [] .none [.breakstmt] (Env.top [])
      (.literal .none) .breakstmt []).2.2.2.1 rfl,
   (c6_nonlocal_exit_boundaries 10 fFunc [] (.bool true) [] (Env.top [])
      (.literal (.bool true)) .breakstmt []).2.2.2.2 rfl rfl rfl⟩

/-- C7 counterexample: a bare `shinu` (no expression) inside a constructor
— the claim says it is accepted without error — makes the resolver report
"Can't use 'shinu' in constructors": `visit_returnstmt` errors on every
return in `CONSTRUCTOR` context without inspecting the expression. -/
theorem c7_bare_return_in_constructor_rejected :
    resolveStmts .OTHER
        [.classdecl "P".data [("shison".data, [.returnstmt false])]] =
      [.returnInConstructor] ∧
    resolveStmts .OTHER
        [.classdecl "P".data [("shison".data, [.returnstmt false])]] ≠ [] :=
  ⟨rfl, by decide⟩

/-- C7 amended: inside a constructor (a class method named `shison`) the
resolver reports a semantic error for EVERY return statement, with or
without an expression; outside of functions, methods and constructors
every return statement is an error; in function and method contexts
returns are accepted. -/
theorem c7_return_context_rules :
    ∀ (hasExpr : Bool) (ctx : Context),
      resolveStmt .CONSTRUCTOR (.returnstmt hasExpr) = [.returnInConstructor] ∧
      resolveStmt .OTHER (.returnstmt hasExpr) = [.returnOutsideFunction] ∧
      resolveStmt .FUNCTION (.returnstmt hasExpr) = [] ∧
      resolveStmt .METHOD (.returnstmt hasExpr) = [] ∧
      resolveStmt ctx
          (.classdecl "P".data [("shison".data, [.returnstmt hasExpr])]) =
        [.returnInConstructor] := by
  intro hasExpr ctx
  exact ⟨rfl, rfl, rfl, rfl, rfl⟩

/-- C8 counterexample: the claim says every string maps to itself under the
Waifu-representation, but `_make_waifuish` maps the empty string to
`"baito"` (the `value != 0 and not value` guard catches every falsy value
except `0` and `False`, not just nil). -/
theorem c8_empty_string_is_baito :
    make_waifuish (.str []) = "baito".data ∧ make_waifuish (.str []) ≠ [] :=
  ⟨rfl, by decide⟩

/-- C8 amended: the Waifu-representation maps nil AND the empty string to
`baito`; an integer-valued number to its digits without the trailing `.0`;
and every other value — every non-empty string (to itself), every
non-integer number, every boolean — to its natural string form. -/
theorem c8_waifu_representation :
    make_waifuish .none = "baito".data ∧
    make_waifuish (.str []) = "baito".data ∧
    (∀ s : List Char, s ≠ [] → make_waifuish (.str s) = s) ∧
    (∀ i : Int, make_waifuish (.num (i : Rat)) = intDigits i) ∧
    (∀ q : Rat, q.den ≠ 1 → make_waifuish (.num q) = floatStr q) ∧
    (∀ b : Bool, make_waifuish (.bool b) = pyStr (.bool b)) := by
  refine ⟨rfl, rfl, ?_, ?_, ?_, ?_⟩
  · intro s hs
    have : s.isEmpty = false := by simpa using hs
    simp [make_waifuish, pyEq, pyTruthy, this, pyStr]
  · intro i
    rw [make_waifuish_num]
    simp [Rat.den_intCast, Rat.num_intCast, intDigits]
  · intro q hq
    rw [make_waifuish_num, if_neg hq]
  · intro b
    cases b <;> rfl

/-- Witness for C8 amended at a non-empty string, an integer-valued number
and a non-integer number. -/
theorem c8_waifu_representation_witness :
    make_waifuish (.str "a".data) = "a".data ∧
    make_waifuish (.num ((5 : Int) : Rat)) = intDigits 5 ∧
    make_waifuish (.num (mkRat 3 2)) = floatStr (mkRat 3 2) :=
  ⟨c8_waifu_representation.2.2.1 "a".data (by decide),
   c8_waifu_representation.2.2.2.1 5,
   c8_waifu_representation.2.2.2.2.1 (mkRat 3 2) (by decide)⟩

/-- C9: The claim says the lexer terminates on every input with a token
list ending in EOF.  On the input `"!"`, `_get_token` reaches `_match("=",
mustMatch=True)` at end of input, and the error message's `self._peek()`
raises `IndexError`: the lexer crashes and produces no token list.  On
inputs that avoid the crash the EOF close-out behaves as claimed, shown
here on `"a\n"` (EOF-final) and on an indented block whose INDENT is
closed by a DEDENT before EOF. -/
theorem c9_lexer_crash_on_bang :
    get_tokens "!".data = .error .indexError ∧
    (get_tokens "a\n".data).map (fun ts => ts.getLast?.map Token.type) =
      .ok (some .EOF) ∧
    (get_tokens "a:\n b\n".data).map (fun ts => ts.map Token.type) =
      .ok [.IDENTIFIER, .COLON, .NEWLINE, .INDENT, .IDENTIFIER, .NEWLINE,
           .DEDENT, .EOF] :=
  ⟨rfl, rfl, rfl⟩

/-- C10: modules are identified by the last segment of their dotted import
path only.  If importing `p₁` succeeded, importing any `p₂` with the same
last segment returns the very module object loaded for `p₁` and leaves the
registry state — in particular the log of loader calls — unchanged: the
second path's file is never loaded.  Cyclic-import detection likewise
fires exactly when the last segment matches a module name on the
evaluation stack. -/
theorem c10_import_keyed_by_last_segment :
    (∀ (fuel fuel₂ : Nat) (imports : List Char → List (List Char))
        (st : WState) (p₁ p₂ : List Char) (m : ModuleM) (st' : WState),
      lastSegment p₁ = lastSegment p₂ →
      import_module fuel imports st p₁ = .ok (m, st') →
      import_module (fuel₂ + 1) imports st' p₂ = .ok (m, st')) ∧
    (∀ (fuel : Nat) (imports : List Char → List (List Char))
        (st : WState) (p : List Char),
      st.stack.contains (lastSegment p) = true →
      import_module (fuel + 1) imports st p = .error .cyclicDependency) := by
  constructor
  · intro fuel fuel₂ imports st p₁ p₂ m st' hseg h
    obtain ⟨hstack, -, hlook, hcont⟩ := (import_inv fuel).1 _ _ _ _ _ h
    have hcont' : st'.stack.contains (lastSegment p₂) = false := by
      rw [← hseg, hstack]
      exact hcont
    have hmem : lastSegment p₂ ∉ st'.stack := contains_eq_false_iff.1 hcont'
    simp only [import_module]
    rw [if_neg (by simpa using hmem), ← hseg, hlook]
  · intro fuel imports st p hc
    have hmem : lastSegment p ∈ st.stack := by
      have := contains_eq_false_iff (l := st.stack) (a := lastSegment p)
      by_contra hn
      rw [this.2 hn] at hc
      exact Bool.noConfusion hc
    simp only [import_module]
    rw [if_pos (by simpa using hmem)]

/-- Witness for C10: after importing `a.util` into the empty registry,
importing `b.util` returns the cached `util` module with the registry (and
its load log) unchanged; importing `x.util` while a module named `util` is
on the evaluation stack raises the cyclic-dependency error. -/
theorem c10_import_keyed_by_last_segment_witness :
    import_module 5 impNone c10_st1 "b.util".data = .ok (c10_mUtil, c10_st1) ∧
    import_module 5 impNone c10_stCyc "x.util".data = .error .cyclicDependency :=
  ⟨c10_import_keyed_by_last_segment.1 2 4 impNone c10_st0
      "a.util".data "b.util".data c10_mUtil c10_st1 rfl rfl,
   c10_import_keyed_by_last_segment.2 4 impNone c10_stCyc "x.util".data rfl⟩

end Waifu
